import Mathlib

set_option maxRecDepth 8192

/-!
Shallow embedding of the outbound HTTP client of this repository
(internal/httpclient/client.go): the retry-backoff loop of
`Client.DoSigned` / `Client.Do` and the body-limiting wrapper
`Client.do`.  Machine integers (time.Duration, int64 content lengths)
are modelled as `Int` in nanoseconds / bytes; the loop index and the
attempt counter as `Nat`.  Code of the repository that is not part of
the embedded source (the signing transport, request validation, the
context fast-fail flag, the bad-host TTL cache, `http.ParseTime` and
the wall clock) enters the model as explicit oracles carried by `Env`,
or is modelled from the specification where noted.
-/

namespace HttpClient

/-- One second in nanoseconds, as Go `time.Second`. -/
def second : Int := 1000000000

/-- client.go `DoSigned`: `maxRetries = 5`, the max number of attempts. -/
def maxRetries : Nat := 5

/-- client.go `DoSigned`: `baseBackoff = 2 * time.Second`. -/
def baseBackoff : Int := 2 * second

/-- client.go `New` (lines 135-138): a non-positive configured
`MaxBodySize` is replaced by the 512 MiB default. -/
def resolveMaxBodySize (m : Int) : Int :=
  if m ≤ 0 then 512 * 1048576 else m

/-- An outgoing request.  `host` is `r.URL.Hostname()`; `sig` counts the
signatures stamped onto the request so far (observable effect of the
signer, which in Go mutates the request in place). -/
structure Req where
  host : String
  sig : Nat
  deriving DecidableEq, Repr

/-- Transport-level errors as classified by `DoSigned`.  The first four
constructors are the wrapped-sentinel classes recognised by
`errorsv2.IsV2(err, context.DeadlineExceeded, context.Canceled,
ErrBodyTooLarge, ErrReservedAddr)`; `dns` carries the
`net.DNSError.IsNotFound` flag; every error carries its message string
(`err.Error()`), which the code substring-matches. -/
inductive TransportError where
  | deadlineExceeded
  | canceled
  | bodyTooLarge
  | reservedAddr
  | dns (isNotFound : Bool) (msg : String)
  | other (msg : String)
  deriving DecidableEq, Repr

/-- `err.Error()` for each modelled error class. -/
def TransportError.msg : TransportError → String
  | .deadlineExceeded => "context deadline exceeded"
  | .canceled => "context canceled"
  | .bodyTooLarge => "body size too large"
  | .reservedAddr => "dial within blocked / reserved IP range"
  | .dns _ m => m
  | .other m => m

/-- client.go lines 282-287: membership in the non-retryable sentinel
set checked by `errorsv2.IsV2`. -/
def TransportError.sentinelNoRetry : TransportError → Bool
  | .deadlineExceeded => true
  | .canceled => true
  | .bodyTooLarge => true
  | .reservedAddr => true
  | _ => false

/-- `strings.Contains s pat`: some suffix of `s` starts with `pat`. -/
def strContains (s pat : String) : Bool :=
  (List.range (s.data.length + 1)).any fun i => pat.data.isPrefixOf (s.data.drop i)

/-- client.go lines 290-293: the unrecoverable error classes recognised
only by their message text. -/
def fatalMsg (m : String) : Bool :=
  strContains m "stopped after 10 redirects" ||
  strContains m "tls: " ||
  strContains m "x509: "

/-- Result of classifying a transport error in the `else if` chain of
`DoSigned` (lines 282-302): returned verbatim, returned tagged
not-found, or allowed to fall through to the retry path. -/
inductive ErrClass where
  | fatal
  | notFound
  | retry
  deriving DecidableEq, Repr

/-- The `else if` chain of `DoSigned` lines 282-302 in source order:
wrapped-sentinel check, then message-text check, then DNS not-found
check; everything else falls through to backoff-and-retry. -/
def classify (e : TransportError) : ErrClass :=
  if e.sentinelNoRetry then .fatal
  else if fatalMsg e.msg then .fatal
  else
    match e with
    | .dns true _ => .notFound
    | _ => .retry

/-- A raw transport response before `Client.do` wraps it: status code,
status text (`rsp.Status`), the `Retry-After` header value
(`""` when absent, as `Header.Get` returns), declared
`ContentLength` (negative = unknown), and the bytes the underlying
body stream would deliver. -/
structure RawResponse where
  statusCode : Nat
  status : String
  retryAfter : String
  contentLength : Int
  body : List Nat
  deriving DecidableEq, Repr

/-- Outcome of one round trip through the underlying transport. -/
inductive TransportResult where
  | ok (raw : RawResponse)
  | err (e : TransportError)
  deriving DecidableEq, Repr

/-- client.go `do` lines 344-349: the read limit is the declared
content length, or `bodyMax` when the length is unknown (negative). -/
def limitFor (bodyMax : Int) (raw : RawResponse) : Int :=
  if raw.contentLength < 0 then bodyMax else raw.contentLength

/-- A response whose body has been wrapped by `Client.do`: all response
fields are copied verbatim; `bodyAvail` is what reading the
`io.LimitReader`-wrapped body to end-of-stream yields, `bodyRest` is
what stays unread in the underlying stream beyond the limit. -/
structure WrappedResponse where
  statusCode : Nat
  status : String
  retryAfter : String
  contentLength : Int
  bodyAvail : List Nat
  bodyRest : List Nat
  deriving DecidableEq, Repr

/-- client.go `do` lines 351-363: wrap the body in a limit reader; the
response is otherwise unchanged. -/
def wrapResponse (bodyMax : Int) (raw : RawResponse) : WrappedResponse :=
  { statusCode := raw.statusCode
    status := raw.status
    retryAfter := raw.retryAfter
    contentLength := raw.contentLength
    bodyAvail := raw.body.take (limitFor bodyMax raw).toNat
    bodyRest := raw.body.drop (limitFor bodyMax raw).toNat }

/-- State of the underlying body stream after `Close` on the wrapped
body: the closer-with-callback first drains the limited reader
(`discard.ReadFrom(rbody)`), then closes the underlying stream. -/
structure ClosedBody where
  drained : List Nat
  leftover : List Nat
  closed : Bool
  deriving DecidableEq, Repr

/-- client.go `do` lines 354-357: closing the wrapped body drains every
byte still readable through the limit before the underlying close. -/
def closeWrapped (w : WrappedResponse) : ClosedBody :=
  { drained := w.bodyAvail, leftover := w.bodyRest, closed := true }

/-- Outcome of `Client.do`: a wrapped response, the body-too-large
rejection (carrying the state of the body it closed), or a transport
error passed through. -/
inductive DoOut where
  | ok (w : WrappedResponse)
  | errBody (c : ClosedBody)
  | errTransport (e : TransportError)
  deriving DecidableEq, Repr

/-- client.go `do` (lines 332-372, named `doReq` here because `do` is a
Lean keyword): pass transport errors through; otherwise wrap the body
with the read limit, then reject with `ErrBodyTooLarge` — closing the
just-wrapped body — when the declared content length exceeds the
maximum. -/
def doReq (bodyMax : Int) (t : TransportResult) : DoOut :=
  match t with
  | .err e => .errTransport e
  | .ok raw =>
    let w := wrapResponse bodyMax raw
    if raw.contentLength > bodyMax then .errBody (closeWrapped w)
    else .ok w

/-- Go `strconv.ParseUint(s, 10, 32)` as used on line 264: the parsed
value for a nonempty all-digit string (clamped to the 32-bit maximum,
which `ParseUint` returns on range error), and `0` — the discarded-error
convention of the call site — for anything else. -/
def parseUint32 (s : String) : Nat :=
  if s.data ≠ [] ∧ s.data.all (fun c => c.isDigit) then
    min (s.data.foldl (fun a c => a * 10 + (c.toNat - 48)) 0) (2 ^ 32 - 1)
  else 0

/-- client.go lines 258-276: backoff derived from the `Retry-After`
header.  `parseAt` is the `http.ParseTime` oracle (absolute
nanoseconds; a value before `now` also covers the Go zero time returned
on parse failure), `now` is `time.Now()` at this attempt.  A nonzero
integer header value gives that many seconds; otherwise a date not
before now gives `at.Sub(now)`; the result is capped at
`baseBackoff * maxRetries`. -/
def headerBackoff (parseAt : String → Int) (now : Int) (after : String) : Int :=
  if after = "" then 0
  else
    let u := parseUint32 after
    let b : Int :=
      if u ≠ 0 then (u : Int) * second
      else if ¬ parseAt after < now then parseAt after - now
      else 0
    let mx := baseBackoff * (maxRetries : Int)
    if b > mx then mx else b

/-- client.go line 312: `baseBackoff * 1 << (i + 1)` — the exponential
fallback wait after attempt `i` (Go `*` and `<<` associate left at the
same precedence). -/
def expBackoff (i : Nat) : Int := baseBackoff * 1 * 2 ^ (i + 1)

/-- The per-attempt error value `DoSigned` holds when it decides to
retry: either the `fmt.Errorf` built from a retryable response status,
or a retryable transport error. -/
inductive AttemptErr where
  | rspStatus (status : String)
  | tErr (e : TransportError)
  deriving DecidableEq, Repr

/-- The error taxonomy a call can end with: an error returned verbatim,
a DNS error tagged not-found by `gtserror.SetNotFound`, a retryable
error wrapped `"%w (fast fail)"`, the request context's error, the
`"transport reached max retries"` error, a signer failure, or the
request-validation error. -/
inductive FinalError where
  | plain (e : TransportError)
  | notFoundTagged (e : TransportError)
  | fastFail (ae : AttemptErr)
  | ctxDone
  | exhausted
  | signFailed
  | invalidReq
  deriving DecidableEq, Repr

/-- What a call to `DoSigned` returns: a wrapped response with nil
error, or a non-nil error with no response. -/
inductive CallResult where
  | ok (w : WrappedResponse)
  | err (e : FinalError)
  deriving DecidableEq, Repr

/-- Whether the call returned a non-nil error. -/
def CallResult.isErr : CallResult → Bool
  | .ok _ => false
  | .err _ => true

/-- Observable trace of the attempt loop: its result, the completed
backoff waits in order, the number of attempts (loop iterations)
started, the result of each signer invocation in order, and the
requests actually handed to the transport in order. -/
structure LoopOut where
  result : CallResult
  waits : List Int
  attempts : Nat
  signOuts : List (Option Req)
  sent : List Req
  deriving DecidableEq, Repr

/-- Modelled from the spec: the signer callback (§4.5) takes the
request and returns a success/failure signal, mutating the request in
place on success — modelled functionally as the updated request. -/
def SignFunc : Type := Req → Option Req

/-- client.go `Do` lines 191-193: the no-op signer returning nil. -/
def noSign : SignFunc := fun q => some q

/-- Oracles for the environment of one call: the resolved body-size
maximum, the verdict of the (not embedded) `ValidateRequest`, the
context fast-fail flag read by `gtscontext.IsFastfail`, whether the
bad-host cache holds the request's host, the wall clock and
`http.ParseTime` oracle per attempt, the transport outcome per signed
request and attempt index, and whether the request context fires
during the backoff select of a given attempt. -/
structure Env where
  bodyMax : Int
  reqValid : Bool
  ctxFastFail : Bool
  badHostHit : Bool
  nowAt : Nat → Int
  parseAt : String → Int
  roundTrip : Req → Nat → TransportResult
  cancelAt : Nat → Bool

/-- A loop iteration that returns from inside its own attempt: one
attempt started, one signer invocation, one transmission, no wait. -/
def oneShot (res : CallResult) (r1 : Req) : LoopOut :=
  { result := res, waits := [], attempts := 1, signOuts := [some r1], sent := [r1] }

/-- client.go lines 304-324, the tail of a retryable attempt at index
`i`: on fast-fail return the wrapped error at once with no wait; else
replace a zero backoff by the exponential fallback, then either return
the context's error if it fires during the select, or complete the
wait and continue with the rest of the loop (`rest`). -/
def retryTail (ff cancel : Bool) (i : Nat) (bo : Int) (ae : AttemptErr)
    (r1 : Req) (rest : LoopOut) : LoopOut :=
  if ff then oneShot (.err (.fastFail ae)) r1
  else
    let bo1 := if bo = 0 then expBackoff i else bo
    if cancel then oneShot (.err .ctxDone) r1
    else
      { result := rest.result
        waits := bo1 :: rest.waits
        attempts := rest.attempts + 1
        signOuts := some r1 :: rest.signOuts
        sent := r1 :: rest.sent }

/-- The attempt loop of `DoSigned` (client.go lines 238-330) from loop
index `i` with `fuel` iterations left.  Each iteration: invoke the
signer (modelled from the spec: the signing transport runs it
immediately before transmission, and its failure is fatal and
non-retryable), transmit, pass the outcome through `doReq`, then follow
the source's classification: a response with status `< 500` and
`≠ 429` is returned as-is; other responses compute a header backoff,
close their body and retry; `ErrBodyTooLarge` and fatal transport
errors return at once; DNS not-found returns tagged; the rest retry
with exponential backoff.  Exhausted fuel is the loop falling off its
end: the max-retries error. -/
def runFrom (env : Env) (sign : SignFunc) (ff : Bool) : Req → Nat → Nat → LoopOut
  | _, _, 0 =>
    { result := .err .exhausted, waits := [], attempts := 0, signOuts := [], sent := [] }
  | r, i, fuel + 1 =>
    match sign r with
    | none =>
      { result := .err .signFailed, waits := [], attempts := 1, signOuts := [none], sent := [] }
    | some r1 =>
      match doReq env.bodyMax (env.roundTrip r1 i) with
      | .ok w =>
        if w.statusCode < 500 ∧ w.statusCode ≠ 429 then oneShot (.ok w) r1
        else
          retryTail ff (env.cancelAt i) i
            (headerBackoff env.parseAt (env.nowAt i) w.retryAfter)
            (.rspStatus w.status) r1 (runFrom env sign ff r1 (i + 1) fuel)
      | .errBody _ => oneShot (.err (.plain .bodyTooLarge)) r1
      | .errTransport e =>
        match classify e with
        | .fatal => oneShot (.err (.plain e)) r1
        | .notFound => oneShot (.err (.notFoundTagged e)) r1
        | .retry => retryTail ff (env.cancelAt i) i 0 (.tErr e) r1
            (runFrom env sign ff r1 (i + 1) fuel)

/-- Result of a whole call: the loop's trace plus the bad-host cache
write the deferred function performs (the host written, or none). -/
structure CallOut where
  result : CallResult
  waits : List Int
  attempts : Nat
  signOuts : List (Option Req)
  sent : List Req
  cacheWrite : Option String
  deriving DecidableEq, Repr

/-- client.go `DoSigned` lines 197-330: validate (oracle), compute the
fast-fail flag as context flag `||` bad-host cache hit, register the
bad-host deferred write only when the context flag was unset, run the
attempt loop with `maxRetries` iterations, and perform the deferred
cache write of the request's host exactly when it was registered and
the call returns a non-nil error. -/
def doSigned (env : Env) (r : Req) (sign : SignFunc) : CallOut :=
  if env.reqValid then
    let ff := env.ctxFastFail || env.badHostHit
    let lo := runFrom env sign ff r 0 maxRetries
    { result := lo.result
      waits := lo.waits
      attempts := lo.attempts
      signOuts := lo.signOuts
      sent := lo.sent
      cacheWrite :=
        if env.ctxFastFail = false ∧ lo.result.isErr then some r.host else none }
  else
    { result := .err .invalidReq, waits := [], attempts := 0
      signOuts := [], sent := [], cacheWrite := none }

/-- client.go `Do` lines 190-194: `DoSigned` with the no-op signer. -/
def Do (env : Env) (r : Req) : CallOut := doSigned env r noSign

/-- A signer that stamps one fresh signature onto the request, used to
observe that signatures are recomputed per attempt. -/
def stampSign : SignFunc := fun q => some { q with sig := q.sig + 1 }

/-! ### Projection and unfolding lemmas -/

@[simp]
theorem wrapResponse_statusCode (bodyMax : Int) (raw : RawResponse) :
    (wrapResponse bodyMax raw).statusCode = raw.statusCode := rfl

@[simp]
theorem wrapResponse_status (bodyMax : Int) (raw : RawResponse) :
    (wrapResponse bodyMax raw).status = raw.status := rfl

@[simp]
theorem wrapResponse_retryAfter (bodyMax : Int) (raw : RawResponse) :
    (wrapResponse bodyMax raw).retryAfter = raw.retryAfter := rfl

@[simp]
theorem wrapResponse_contentLength (bodyMax : Int) (raw : RawResponse) :
    (wrapResponse bodyMax raw).contentLength = raw.contentLength := rfl

theorem runFrom_fuelZero (env : Env) (sign : SignFunc) (ff : Bool) (r : Req) (i : Nat) :
    runFrom env sign ff r i 0 =
      { result := .err .exhausted, waits := [], attempts := 0, signOuts := [], sent := [] } := rfl

theorem runFrom_signNone (env : Env) (sign : SignFunc) (ff : Bool) (r : Req) (i fuel : Nat)
    (hs : sign r = none) :
    runFrom env sign ff r i (fuel + 1) =
      { result := .err .signFailed, waits := [], attempts := 1, signOuts := [none], sent := [] } := by
  simp [runFrom, hs]

theorem runFrom_okGood (env : Env) (sign : SignFunc) (ff : Bool) (r r1 : Req) (i fuel : Nat)
    (raw : RawResponse) (hs : sign r = some r1) (ht : env.roundTrip r1 i = .ok raw)
    (hcl : raw.contentLength ≤ env.bodyMax)
    (h5 : raw.statusCode < 500) (h4 : raw.statusCode ≠ 429) :
    runFrom env sign ff r i (fuel + 1) = oneShot (.ok (wrapResponse env.bodyMax raw)) r1 := by
  have hcl' : ¬ raw.contentLength > env.bodyMax := not_lt.mpr hcl
  simp [runFrom, hs, ht, doReq, hcl', h5, h4]

theorem runFrom_okRetry (env : Env) (sign : SignFunc) (ff : Bool) (r r1 : Req) (i fuel : Nat)
    (raw : RawResponse) (hs : sign r = some r1) (ht : env.roundTrip r1 i = .ok raw)
    (hcl : raw.contentLength ≤ env.bodyMax)
    (hbad : 500 ≤ raw.statusCode ∨ raw.statusCode = 429) :
    runFrom env sign ff r i (fuel + 1) =
      retryTail ff (env.cancelAt i) i
        (headerBackoff env.parseAt (env.nowAt i) raw.retryAfter)
        (.rspStatus raw.status) r1 (runFrom env sign ff r1 (i + 1) fuel) := by
  have hcl' : ¬ raw.contentLength > env.bodyMax := not_lt.mpr hcl
  have hbad' : ¬ (raw.statusCode < 500 ∧ raw.statusCode ≠ 429) := by
    rcases hbad with h | h
    · exact fun hc => absurd hc.1 (not_lt.mpr h)
    · exact fun hc => hc.2 h
  simp [runFrom, hs, ht, doReq, hcl', hbad']

theorem runFrom_okBig (env : Env) (sign : SignFunc) (ff : Bool) (r r1 : Req) (i fuel : Nat)
    (raw : RawResponse) (hs : sign r = some r1) (ht : env.roundTrip r1 i = .ok raw)
    (hcl : raw.contentLength > env.bodyMax) :
    runFrom env sign ff r i (fuel + 1) = oneShot (.err (.plain .bodyTooLarge)) r1 := by
  simp [runFrom, hs, ht, doReq, hcl]

theorem runFrom_errFatal (env : Env) (sign : SignFunc) (ff : Bool) (r r1 : Req) (i fuel : Nat)
    (e : TransportError) (hs : sign r = some r1) (ht : env.roundTrip r1 i = .err e)
    (hc : classify e = .fatal) :
    runFrom env sign ff r i (fuel + 1) = oneShot (.err (.plain e)) r1 := by
  simp [runFrom, hs, ht, doReq, hc]

theorem runFrom_errNotFound (env : Env) (sign : SignFunc) (ff : Bool) (r r1 : Req) (i fuel : Nat)
    (e : TransportError) (hs : sign r = some r1) (ht : env.roundTrip r1 i = .err e)
    (hc : classify e = .notFound) :
    runFrom env sign ff r i (fuel + 1) = oneShot (.err (.notFoundTagged e)) r1 := by
  simp [runFrom, hs, ht, doReq, hc]

theorem runFrom_errRetry (env : Env) (sign : SignFunc) (ff : Bool) (r r1 : Req) (i fuel : Nat)
    (e : TransportError) (hs : sign r = some r1) (ht : env.roundTrip r1 i = .err e)
    (hc : classify e = .retry) :
    runFrom env sign ff r i (fuel + 1) =
      retryTail ff (env.cancelAt i) i 0 (.tErr e) r1 (runFrom env sign ff r1 (i + 1) fuel) := by
  simp [runFrom, hs, ht, doReq, hc]

/-! ### Concrete inputs used by witnesses and counterexamples -/

/-- A concrete request. -/
def rqW : Req := { host := "example.com", sig := 0 }

/-- A concrete 503 response with no Retry-After header. -/
def raw503 : RawResponse :=
  { statusCode := 503, status := "503 Service Unavailable", retryAfter := ""
    contentLength := 0, body := [] }

/-- A concrete environment: valid request, no fast-fail, the transport
answering 503 on every attempt, nothing cancelled. -/
def env503 : Env :=
  { bodyMax := 100, reqValid := true, ctxFastFail := false, badHostHit := false
    nowAt := fun _ => 1000, parseAt := fun _ => 0
    roundTrip := fun _ _ => .ok raw503
    cancelAt := fun _ => false }

/-- A concrete response declaring 150 bytes against a 100-byte max. -/
def rawBig : RawResponse :=
  { statusCode := 200, status := "200 OK", retryAfter := ""
    contentLength := 150, body := [1, 2, 3] }

/-- `env503` with the transport answering the oversized response. -/
def envBig : Env := { env503 with roundTrip := fun _ _ => .ok rawBig }

/-- `env503` with the transport failing with deadline-exceeded. -/
def envDL : Env := { env503 with roundTrip := fun _ _ => .err .deadlineExceeded }

/-- `env503` with the transport failing with a DNS not-found error. -/
def envDNS : Env :=
  { env503 with roundTrip := fun _ _ => .err (.dns true "lookup example.com: no such host") }

/-! ### Claims -/

/-- Claim C3: for every response whose declared content length exceeds
the configured maximum body size, the call fails with the
body-too-large error, no response (hence no body bytes) is handed to
the caller, the underlying body stream is closed with its unread bytes
drained before the error is returned, and the error is never retried:
the attempt returns at once with no backoff wait and no further
attempts. -/
theorem claim_C3 :
    (∀ (bodyMax : Int) (raw : RawResponse), 0 ≤ bodyMax →
      raw.contentLength > bodyMax →
      doReq bodyMax (.ok raw) = .errBody (closeWrapped (wrapResponse bodyMax raw)) ∧
      (closeWrapped (wrapResponse bodyMax raw)).closed = true ∧
      (raw.body.length ≤ raw.contentLength.toNat →
        (closeWrapped (wrapResponse bodyMax raw)).drained = raw.body ∧
        (closeWrapped (wrapResponse bodyMax raw)).leftover = [])) ∧
    (∀ (env : Env) (sign : SignFunc) (ff : Bool) (r r1 : Req) (i fuel : Nat)
      (raw : RawResponse), sign r = some r1 → env.roundTrip r1 i = .ok raw →
      raw.contentLength > env.bodyMax →
      runFrom env sign ff r i (fuel + 1) = oneShot (.err (.plain .bodyTooLarge)) r1) := by
  constructor
  · intro bodyMax raw hm hcl
    have hneg : ¬ raw.contentLength < 0 := by omega
    refine ⟨by simp [doReq, hcl], rfl, fun hlen => ⟨?_, ?_⟩⟩
    · simp only [closeWrapped, wrapResponse, limitFor, hneg, if_false]
      exact List.take_of_length_le hlen
    · simp only [closeWrapped, wrapResponse, limitFor, hneg, if_false]
      exact List.drop_eq_nil_of_le hlen
  · intro env sign ff r r1 i fuel raw hs ht hcl
    exact runFrom_okBig env sign ff r r1 i fuel raw hs ht hcl

/-- Witness for C3 at a concrete oversized response and environment. -/
theorem claim_C3_witness :
    (closeWrapped (wrapResponse 100 rawBig)).drained = rawBig.body ∧
    (closeWrapped (wrapResponse 100 rawBig)).leftover = [] ∧
    runFrom envBig noSign false rqW 0 5 = oneShot (.err (.plain .bodyTooLarge)) rqW :=
  ⟨((claim_C3.1 100 rawBig (by decide) (by decide)).2.2 (by decide)).1,
   ((claim_C3.1 100 rawBig (by decide) (by decide)).2.2 (by decide)).2,
   claim_C3.2 envBig noSign false rqW rqW 0 4 rawBig rfl rfl (by decide)⟩

/-- Claim C4: attempts failing with a wrapped sentinel error (deadline
exceeded, cancellation, body-too-large, reserved address) or with an
error message indicating too many redirects, a TLS failure or an x509
certificate failure return that error immediately with no further
attempts; a DNS error marked not-found likewise returns immediately on
the attempt it occurs, tagged with the distinct not-found
classification. -/
theorem claim_C4 :
    (TransportError.deadlineExceeded.sentinelNoRetry = true ∧
     TransportError.canceled.sentinelNoRetry = true ∧
     TransportError.bodyTooLarge.sentinelNoRetry = true ∧
     TransportError.reservedAddr.sentinelNoRetry = true) ∧
    (∀ m : String,
      strContains m "stopped after 10 redirects" = true ∨
      strContains m "tls: " = true ∨ strContains m "x509: " = true →
      fatalMsg m = true) ∧
    (∀ (env : Env) (sign : SignFunc) (ff : Bool) (r r1 : Req) (i fuel : Nat)
      (e : TransportError), sign r = some r1 → env.roundTrip r1 i = .err e →
      ((e.sentinelNoRetry = true ∨ fatalMsg e.msg = true) →
        runFrom env sign ff r i (fuel + 1) = oneShot (.err (.plain e)) r1) ∧
      (∀ m : String, e = .dns true m → fatalMsg m = false →
        runFrom env sign ff r i (fuel + 1) = oneShot (.err (.notFoundTagged e)) r1)) := by
  refine ⟨⟨rfl, rfl, rfl, rfl⟩, ?_, ?_⟩
  · intro m h
    unfold fatalMsg
    rcases h with h | h | h <;> simp [h]
  · intro env sign ff r r1 i fuel e hs ht
    constructor
    · intro hf
      apply runFrom_errFatal env sign ff r r1 i fuel e hs ht
      unfold classify
      rcases hf with h | h
      · simp [h]
      · cases hsen : e.sentinelNoRetry <;> simp [hsen, h]
    · intro m hm hf
      subst hm
      apply runFrom_errNotFound env sign ff r r1 i fuel _ hs ht
      simp [classify, TransportError.sentinelNoRetry, TransportError.msg, hf]

/-- Witness for C4: a deadline-exceeded failure and a DNS not-found
failure, each returned on the first attempt. -/
theorem claim_C4_witness :
    runFrom envDL noSign false rqW 0 5 = oneShot (.err (.plain .deadlineExceeded)) rqW ∧
    runFrom envDNS noSign false rqW 0 5 =
      oneShot (.err (.notFoundTagged (.dns true "lookup example.com: no such host"))) rqW :=
  ⟨(claim_C4.2.2 envDL noSign false rqW rqW 0 4 _ rfl rfl).1 (Or.inl rfl),
   (claim_C4.2.2 envDNS noSign false rqW rqW 0 4 _ rfl rfl).2
     "lookup example.com: no such host" rfl (by decide)⟩

/-- Claim C10: a response with negative (unknown) declared content
length is returned successfully whatever the underlying stream holds —
body-too-large is never raised for undeclared lengths — and reading
its wrapped body yields exactly the first `bodyMax` bytes of the
stream, end-of-stream after that; the resolved maximum from the
constructor is always positive. -/
theorem claim_C10 (bodyMax : Int) (raw : RawResponse)
    (hneg : raw.contentLength < 0) (hm : 0 ≤ bodyMax) :
    doReq bodyMax (.ok raw) = .ok (wrapResponse bodyMax raw) ∧
    (wrapResponse bodyMax raw).bodyAvail = raw.body.take bodyMax.toNat ∧
    (bodyMax.toNat ≤ raw.body.length →
      (wrapResponse bodyMax raw).bodyAvail.length = bodyMax.toNat) ∧
    (∀ m : Int, 0 < resolveMaxBodySize m) := by
  have hgt : ¬ raw.contentLength > bodyMax := by omega
  refine ⟨by simp [doReq, hgt], ?_, ?_, ?_⟩
  · simp [wrapResponse, limitFor, hneg]
  · intro hlen
    simp [wrapResponse, limitFor, hneg, List.length_take]
    omega
  · intro m
    unfold resolveMaxBodySize
    split
    · norm_num
    · omega

/-- Witness for C10: an unknown-length response over a 150-byte stream
against a 100-byte maximum is returned with a 100-byte body. -/
theorem claim_C10_witness :
    doReq 100 (.ok { statusCode := 200, status := "200 OK", retryAfter := ""
                     contentLength := -1, body := List.range 150 }) =
      .ok (wrapResponse 100 { statusCode := 200, status := "200 OK", retryAfter := ""
                              contentLength := -1, body := List.range 150 }) ∧
    (wrapResponse 100 { statusCode := 200, status := "200 OK", retryAfter := ""
                        contentLength := -1, body := List.range 150 }).bodyAvail.length =
      (100 : Int).toNat :=
  ⟨(claim_C10 100 _ (by decide) (by decide)).1,
   (claim_C10 100 _ (by decide) (by decide)).2.2.1 (by decide)⟩

/-- Closing the result of `retryTail` over the result projection: an ok
result can only come from the continuation of the loop. -/
theorem retryTail_result_ok (ff cancel : Bool) (i : Nat) (bo : Int) (ae : AttemptErr)
    (r1 : Req) (rest : LoopOut) (w : WrappedResponse)
    (h : (retryTail ff cancel i bo ae r1 rest).result = .ok w) :
    rest.result = .ok w := by
  simp only [retryTail, oneShot] at h
  split at h
  · simp at h
  · split at h
    · simp at h
    · exact h

/-- Inversion for the loop: whenever the loop's result is an ok
response, that response has status `< 500` and `≠ 429` and is the
body-limited wrapping of some raw response the transport returned
within the declared-length bound. -/
theorem runFrom_result_ok (env : Env) (sign : SignFunc) (ff : Bool) :
    ∀ (fuel i : Nat) (r : Req) (w : WrappedResponse),
      (runFrom env sign ff r i fuel).result = .ok w →
      (w.statusCode < 500 ∧ w.statusCode ≠ 429) ∧
      ∃ (i0 : Nat) (r1 : Req) (raw : RawResponse),
        env.roundTrip r1 i0 = .ok raw ∧ raw.contentLength ≤ env.bodyMax ∧
        w = wrapResponse env.bodyMax raw := by
  intro fuel
  induction fuel with
  | zero => intro i r w h; simp [runFrom_fuelZero] at h
  | succ fuel ih =>
    intro i r w h
    cases hs : sign r with
    | none => rw [runFrom_signNone env sign ff r i fuel hs] at h; simp at h
    | some r1 =>
      cases ht : env.roundTrip r1 i with
      | ok raw =>
        by_cases hcl : raw.contentLength > env.bodyMax
        · rw [runFrom_okBig env sign ff r r1 i fuel raw hs ht hcl] at h
          simp [oneShot] at h
        · have hcl' : raw.contentLength ≤ env.bodyMax := not_lt.mp hcl
          by_cases hgood : raw.statusCode < 500 ∧ raw.statusCode ≠ 429
          · rw [runFrom_okGood env sign ff r r1 i fuel raw hs ht hcl' hgood.1 hgood.2] at h
            simp only [oneShot, CallResult.ok.injEq] at h
            subst h
            exact ⟨⟨by simpa using hgood.1, by simpa using hgood.2⟩,
              i, r1, raw, ht, hcl', rfl⟩
          · have hbad : 500 ≤ raw.statusCode ∨ raw.statusCode = 429 := by omega
            rw [runFrom_okRetry env sign ff r r1 i fuel raw hs ht hcl' hbad] at h
            exact ih (i + 1) r1 w (retryTail_result_ok _ _ _ _ _ _ _ _ h)
      | err e =>
        cases hc : classify e with
        | fatal =>
          rw [runFrom_errFatal env sign ff r r1 i fuel e hs ht hc] at h
          simp [oneShot] at h
        | notFound =>
          rw [runFrom_errNotFound env sign ff r r1 i fuel e hs ht hc] at h
          simp [oneShot] at h
        | retry =>
          rw [runFrom_errRetry env sign ff r r1 i fuel e hs ht hc] at h
          exact ih (i + 1) r1 w (retryTail_result_ok _ _ _ _ _ _ _ _ h)

/-- A concrete in-bounds 200 response. -/
def raw200 : RawResponse :=
  { statusCode := 200, status := "200 OK", retryAfter := ""
    contentLength := 3, body := [7, 8, 9] }

/-- `env503` with the transport answering the 200 response. -/
def env200 : Env := { env503 with roundTrip := fun _ _ => .ok raw200 }

/-- Claim C1: an attempt whose round trip succeeds with a status `< 500`
other than 429 ends the call there, returning that response with a nil
error, modified only by the body-limiter wrapping; and every response a
call returns has status `< 500` and `≠ 429` and is exactly the wrapping
of a raw transport response — a `>= 500` or 429 response is never
returned. -/
theorem claim_C1 :
    (∀ (env : Env) (sign : SignFunc) (ff : Bool) (r r1 : Req) (i fuel : Nat)
      (raw : RawResponse), sign r = some r1 → env.roundTrip r1 i = .ok raw →
      raw.contentLength ≤ env.bodyMax →
      raw.statusCode < 500 → raw.statusCode ≠ 429 →
      runFrom env sign ff r i (fuel + 1) = oneShot (.ok (wrapResponse env.bodyMax raw)) r1) ∧
    (∀ (env : Env) (r : Req) (sign : SignFunc) (w : WrappedResponse),
      (doSigned env r sign).result = .ok w →
      (w.statusCode < 500 ∧ w.statusCode ≠ 429) ∧
      ∃ (i0 : Nat) (r1 : Req) (raw : RawResponse),
        env.roundTrip r1 i0 = .ok raw ∧ raw.contentLength ≤ env.bodyMax ∧
        w = wrapResponse env.bodyMax raw) := by
  constructor
  · exact fun env sign ff r r1 i fuel raw hs ht hcl h5 h4 =>
      runFrom_okGood env sign ff r r1 i fuel raw hs ht hcl h5 h4
  · intro env r sign w h
    unfold doSigned at h
    split at h
    · exact runFrom_result_ok env sign _ maxRetries 0 r w h
    · simp at h

/-- Witness for C1 at a concrete 200 response. -/
theorem claim_C1_witness :
    runFrom env200 noSign false rqW 0 5 = oneShot (.ok (wrapResponse 100 raw200)) rqW ∧
    ((wrapResponse 100 raw200).statusCode < 500 ∧ (wrapResponse 100 raw200).statusCode ≠ 429) :=
  ⟨claim_C1.1 env200 noSign false rqW rqW 0 4 raw200 rfl rfl (by decide) (by decide) (by decide),
   (claim_C1.2 env200 rqW noSign (wrapResponse 100 raw200) (by decide)).1⟩

/-- The exponential-fallback wait sequence from loop index `i` over
`fuel` more attempts. -/
def expWaits : Nat → Nat → List Int
  | _, 0 => []
  | i, fuel + 1 => expBackoff i :: expWaits (i + 1) fuel

@[simp]
theorem headerBackoff_absent (pa : String → Int) (now : Int) :
    headerBackoff pa now "" = 0 := by
  simp [headerBackoff]

/-- The loop under an environment whose every attempt yields a 503 with
no Retry-After header, with no fast-fail and no cancellation: it spends
all its fuel, waits the exponential fallback each time, and ends
exhausted. -/
theorem runFrom_allRetry (env : Env) (sign : SignFunc)
    (hsign : ∀ q, (sign q).isSome = true)
    (hrt : ∀ q j, ∃ raw, env.roundTrip q j = .ok raw ∧ raw.statusCode = 503 ∧
      raw.retryAfter = "" ∧ raw.contentLength ≤ env.bodyMax)
    (hcan : ∀ j, env.cancelAt j = false) :
    ∀ (fuel i : Nat) (r : Req),
      (runFrom env sign false r i fuel).result = .err .exhausted ∧
      (runFrom env sign false r i fuel).waits = expWaits i fuel ∧
      (runFrom env sign false r i fuel).attempts = fuel := by
  intro fuel
  induction fuel with
  | zero => intro i r; simp [runFrom_fuelZero, expWaits]
  | succ fuel ih =>
    intro i r
    obtain ⟨r1, hs⟩ := Option.isSome_iff_exists.mp (hsign r)
    obtain ⟨raw, ht, h503, hra, hcl⟩ := hrt r1 i
    rw [runFrom_okRetry env sign false r r1 i fuel raw hs ht hcl (Or.inl (by omega))]
    have hres := ih (i + 1) r1
    rw [hra]
    simp only [retryTail, headerBackoff_absent, hcan i]
    norm_num
    exact ⟨hres.1, by simp [expWaits, hres.2.1], by simp [hres.2.2]⟩

/-- Claim C2: with fast-fail inactive and every attempt answering 503
with no Retry-After header, exactly 5 attempts happen, the backoff
waits are 4s, 8s, 16s, 32s, 64s (`baseBackoff * 2 ^ (i + 1)`), and the
call ends with the retries-exhausted error. -/
theorem claim_C2 (env : Env) (sign : SignFunc) (r : Req)
    (hv : env.reqValid = true) (hcf : env.ctxFastFail = false)
    (hbh : env.badHostHit = false)
    (hsign : ∀ q, (sign q).isSome = true)
    (hrt : ∀ q j, ∃ raw, env.roundTrip q j = .ok raw ∧ raw.statusCode = 503 ∧
      raw.retryAfter = "" ∧ raw.contentLength ≤ env.bodyMax)
    (hcan : ∀ j, env.cancelAt j = false) :
    (doSigned env r sign).attempts = 5 ∧
    (doSigned env r sign).waits =
      [4 * second, 8 * second, 16 * second, 32 * second, 64 * second] ∧
    (doSigned env r sign).result = .err .exhausted := by
  have h := runFrom_allRetry env sign hsign hrt hcan maxRetries 0 r
  unfold doSigned
  rw [hv, hcf, hbh]
  simp only [if_true, Bool.or_self]
  refine ⟨h.2.2, ?_, h.1⟩
  rw [h.2.1]
  decide

/-- Witness for C2 at the concrete all-503 environment. -/
theorem claim_C2_witness :
    (doSigned env503 rqW noSign).attempts = 5 ∧
    (doSigned env503 rqW noSign).waits =
      [4 * second, 8 * second, 16 * second, 32 * second, 64 * second] ∧
    (doSigned env503 rqW noSign).result = .err .exhausted :=
  claim_C2 env503 noSign rqW rfl rfl rfl (fun _ => rfl)
    (fun _ _ => ⟨raw503, rfl, rfl, rfl, by decide⟩) (fun _ => rfl)

/-- `retryTail` preserves the trace invariants: each transmitted
request is the output of its attempt's signer invocation, and there is
exactly one signer invocation per attempt. -/
theorem retryTail_trace (ff cancel : Bool) (i : Nat) (bo : Int) (ae : AttemptErr)
    (r1 : Req) (rest : LoopOut)
    (h1 : rest.sent = rest.signOuts.reduceOption)
    (h2 : rest.signOuts.length = rest.attempts) :
    (retryTail ff cancel i bo ae r1 rest).sent =
      (retryTail ff cancel i bo ae r1 rest).signOuts.reduceOption ∧
    (retryTail ff cancel i bo ae r1 rest).signOuts.length =
      (retryTail ff cancel i bo ae r1 rest).attempts := by
  simp only [retryTail, oneShot]
  split
  · simp [List.reduceOption_cons_of_some, List.reduceOption_nil]
  · split
    · simp [List.reduceOption_cons_of_some, List.reduceOption_nil]
    · simp [List.reduceOption_cons_of_some, h1, h2]

/-- Trace invariants of the loop: the transmitted requests are exactly
the successful signer outputs in order, and the signer is invoked
exactly once per attempt. -/
theorem runFrom_trace (env : Env) (sign : SignFunc) (ff : Bool) :
    ∀ (fuel i : Nat) (r : Req),
      (runFrom env sign ff r i fuel).sent =
        (runFrom env sign ff r i fuel).signOuts.reduceOption ∧
      (runFrom env sign ff r i fuel).signOuts.length =
        (runFrom env sign ff r i fuel).attempts := by
  intro fuel
  induction fuel with
  | zero => intro i r; simp [runFrom_fuelZero, List.reduceOption_nil]
  | succ fuel ih =>
    intro i r
    cases hs : sign r with
    | none =>
      rw [runFrom_signNone env sign ff r i fuel hs]
      simp [List.reduceOption_cons_of_none, List.reduceOption_nil]
    | some r1 =>
      cases ht : env.roundTrip r1 i with
      | ok raw =>
        by_cases hcl : raw.contentLength > env.bodyMax
        · rw [runFrom_okBig env sign ff r r1 i fuel raw hs ht hcl]
          simp [oneShot, List.reduceOption_cons_of_some, List.reduceOption_nil]
        · have hcl' : raw.contentLength ≤ env.bodyMax := not_lt.mp hcl
          by_cases hgood : raw.statusCode < 500 ∧ raw.statusCode ≠ 429
          · rw [runFrom_okGood env sign ff r r1 i fuel raw hs ht hcl' hgood.1 hgood.2]
            simp [oneShot, List.reduceOption_cons_of_some, List.reduceOption_nil]
          · have hbad : 500 ≤ raw.statusCode ∨ raw.statusCode = 429 := by omega
            rw [runFrom_okRetry env sign ff r r1 i fuel raw hs ht hcl' hbad]
            exact retryTail_trace _ _ _ _ _ _ _ (ih (i + 1) r1).1 (ih (i + 1) r1).2
      | err e =>
        cases hc : classify e with
        | fatal =>
          rw [runFrom_errFatal env sign ff r r1 i fuel e hs ht hc]
          simp [oneShot, List.reduceOption_cons_of_some, List.reduceOption_nil]
        | notFound =>
          rw [runFrom_errNotFound env sign ff r r1 i fuel e hs ht hc]
          simp [oneShot, List.reduceOption_cons_of_some, List.reduceOption_nil]
        | retry =>
          rw [runFrom_errRetry env sign ff r r1 i fuel e hs ht hc]
          exact retryTail_trace _ _ _ _ _ _ _ (ih (i + 1) r1).1 (ih (i + 1) r1).2

/-- With the stamping signer, the request transmitted on the `j`-th
attempt of the loop carries `j + 1` fresh signatures over the starting
request: the signature is recomputed before every transmission. -/
theorem runFrom_stampSig (env : Env) (ff : Bool) :
    ∀ (fuel i : Nat) (r : Req) (j : Nat) (q : Req),
      (runFrom env stampSign ff r i fuel).sent[j]? = some q →
      q.sig = r.sig + j + 1 := by
  intro fuel
  induction fuel with
  | zero =>
    intro i r j q h
    rw [runFrom_fuelZero] at h
    simp at h
  | succ fuel ih =>
    intro i r j q h
    have hs : stampSign r = some { r with sig := r.sig + 1 } := rfl
    have single : ∀ res : CallResult,
        (oneShot res { r with sig := r.sig + 1 }).sent[j]? = some q →
        q.sig = r.sig + j + 1 := by
      intro res hq
      cases j with
      | zero =>
        simp only [oneShot, List.getElem?_cons_zero, Option.some.injEq] at hq
        rw [← hq]
      | succ j => simp [oneShot] at hq
    have tail : ∀ (cancel : Bool) (bo : Int) (ae : AttemptErr),
        (retryTail ff cancel i bo ae { r with sig := r.sig + 1 }
          (runFrom env stampSign ff { r with sig := r.sig + 1 } (i + 1) fuel)).sent[j]? =
          some q →
        q.sig = r.sig + j + 1 := by
      intro cancel bo ae hq
      simp only [retryTail, oneShot] at hq
      split at hq
      · cases j with
        | zero =>
          simp only [List.getElem?_cons_zero, Option.some.injEq] at hq
          rw [← hq]
        | succ j => simp at hq
      · split at hq
        · cases j with
          | zero =>
            simp only [List.getElem?_cons_zero, Option.some.injEq] at hq
            rw [← hq]
          | succ j => simp at hq
        · cases j with
          | zero =>
            simp only [List.getElem?_cons_zero, Option.some.injEq] at hq
            rw [← hq]
          | succ j =>
            simp only [List.getElem?_cons_succ] at hq
            have hrec := ih (i + 1) { r with sig := r.sig + 1 } j q hq
            simp only at hrec
            omega
    cases ht : env.roundTrip { r with sig := r.sig + 1 } i with
    | ok raw =>
      by_cases hcl : raw.contentLength > env.bodyMax
      · rw [runFrom_okBig env stampSign ff r _ i fuel raw hs ht hcl] at h
        exact single _ h
      · have hcl' : raw.contentLength ≤ env.bodyMax := not_lt.mp hcl
        by_cases hgood : raw.statusCode < 500 ∧ raw.statusCode ≠ 429
        · rw [runFrom_okGood env stampSign ff r _ i fuel raw hs ht hcl' hgood.1 hgood.2] at h
          exact single _ h
        · have hbad : 500 ≤ raw.statusCode ∨ raw.statusCode = 429 := by omega
          rw [runFrom_okRetry env stampSign ff r _ i fuel raw hs ht hcl' hbad] at h
          exact tail _ _ _ h
    | err e =>
      cases hc : classify e with
      | fatal =>
        rw [runFrom_errFatal env stampSign ff r _ i fuel e hs ht hc] at h
        exact single _ h
      | notFound =>
        rw [runFrom_errNotFound env stampSign ff r _ i fuel e hs ht hc] at h
        exact single _ h
      | retry =>
        rw [runFrom_errRetry env stampSign ff r _ i fuel e hs ht hc] at h
        exact tail _ _ _ h

/-- Claim C5 (the signing transport is not under src/ and is modelled
from the spec): on every call, the signer is invoked exactly once per
attempt, each transmission uses exactly the request produced by that
attempt's signer invocation (so with a stamping signer the `j`-th
transmitted request carries `j + 1` fresh signatures — the signature is
recomputed per attempt), and `Do` is `DoSigned` with the no-op
signer. -/
theorem claim_C5 :
    (∀ (env : Env) (r : Req) (sign : SignFunc),
      (doSigned env r sign).sent = (doSigned env r sign).signOuts.reduceOption) ∧
    (∀ (env : Env) (r : Req) (sign : SignFunc),
      (doSigned env r sign).signOuts.length = (doSigned env r sign).attempts) ∧
    (∀ (env : Env) (r : Req) (j : Nat) (q : Req),
      (doSigned env r stampSign).sent[j]? = some q → q.sig = r.sig + j + 1) ∧
    (∀ (env : Env) (r : Req), Do env r = doSigned env r noSign) := by
  refine ⟨?_, ?_, ?_, fun env r => rfl⟩
  · intro env r sign
    unfold doSigned
    split
    · exact (runFrom_trace env sign _ maxRetries 0 r).1
    · simp [List.reduceOption_nil]
  · intro env r sign
    unfold doSigned
    split
    · exact (runFrom_trace env sign _ maxRetries 0 r).2
    · rfl
  · intro env r j q h
    unfold doSigned at h
    split at h
    · exact runFrom_stampSig env (env.ctxFastFail || env.badHostHit) maxRetries 0 r j q h
    · simp at h

/-- Witness for C5 at the concrete all-503 environment. -/
theorem claim_C5_witness :
    (doSigned env503 rqW noSign).sent = (doSigned env503 rqW noSign).signOuts.reduceOption ∧
    (doSigned env503 rqW noSign).signOuts.length = (doSigned env503 rqW noSign).attempts ∧
    ({ host := "example.com", sig := 3 } : Req).sig = rqW.sig + 2 + 1 :=
  ⟨claim_C5.1 env503 rqW noSign, claim_C5.2.1 env503 rqW noSign,
   claim_C5.2.2.1 env503 rqW 2 { host := "example.com", sig := 3 } (by decide)⟩

/-- Under fast-fail, every first loop iteration returns: one attempt,
no backoff wait. -/
theorem runFrom_fastFail_one (env : Env) (sign : SignFunc) (r : Req) (i fuel : Nat) :
    (runFrom env sign true r i (fuel + 1)).attempts = 1 ∧
    (runFrom env sign true r i (fuel + 1)).waits = [] := by
  cases hs : sign r with
  | none => rw [runFrom_signNone env sign true r i fuel hs]; exact ⟨rfl, rfl⟩
  | some r1 =>
    cases ht : env.roundTrip r1 i with
    | ok raw =>
      by_cases hcl : raw.contentLength > env.bodyMax
      · rw [runFrom_okBig env sign true r r1 i fuel raw hs ht hcl]; exact ⟨rfl, rfl⟩
      · have hcl' : raw.contentLength ≤ env.bodyMax := not_lt.mp hcl
        by_cases hgood : raw.statusCode < 500 ∧ raw.statusCode ≠ 429
        · rw [runFrom_okGood env sign true r r1 i fuel raw hs ht hcl' hgood.1 hgood.2]
          exact ⟨rfl, rfl⟩
        · have hbad : 500 ≤ raw.statusCode ∨ raw.statusCode = 429 := by omega
          rw [runFrom_okRetry env sign true r r1 i fuel raw hs ht hcl' hbad]
          simp [retryTail, oneShot]
    | err e =>
      cases hc : classify e with
      | fatal => rw [runFrom_errFatal env sign true r r1 i fuel e hs ht hc]; exact ⟨rfl, rfl⟩
      | notFound => rw [runFrom_errNotFound env sign true r r1 i fuel e hs ht hc]; exact ⟨rfl, rfl⟩
      | retry =>
        rw [runFrom_errRetry env sign true r r1 i fuel e hs ht hc]
        simp [retryTail, oneShot]

/-- Claim C6: when fast-fail is active — set in the request context or
derived from a bad-host cache hit — exactly one attempt is still
performed with no backoff wait, and a retryable outcome (a `>= 500` or
429 response, or a transport error that falls through the fatal
classifications) makes the call return the fast-fail-wrapped error
immediately. -/
theorem claim_C6 (env : Env) (r : Req) (sign : SignFunc)
    (hv : env.reqValid = true) (hff : (env.ctxFastFail || env.badHostHit) = true) :
    (doSigned env r sign).attempts = 1 ∧
    (doSigned env r sign).waits = [] ∧
    (∀ (r1 : Req) (raw : RawResponse), sign r = some r1 → env.roundTrip r1 0 = .ok raw →
      raw.contentLength ≤ env.bodyMax → 500 ≤ raw.statusCode ∨ raw.statusCode = 429 →
      (doSigned env r sign).result = .err (.fastFail (.rspStatus raw.status))) ∧
    (∀ (r1 : Req) (e : TransportError), sign r = some r1 → env.roundTrip r1 0 = .err e →
      classify e = .retry →
      (doSigned env r sign).result = .err (.fastFail (.tErr e))) := by
  have h15 : maxRetries = 4 + 1 := rfl
  unfold doSigned
  rw [hv, hff]
  simp only [if_true]
  refine ⟨?_, ?_, ?_, ?_⟩
  · rw [h15]; exact (runFrom_fastFail_one env sign r 0 4).1
  · rw [h15]; exact (runFrom_fastFail_one env sign r 0 4).2
  · intro r1 raw hs ht hcl hbad
    rw [h15, runFrom_okRetry env sign true r r1 0 4 raw hs ht hcl hbad]
    simp [retryTail, oneShot]
  · intro r1 e hs ht hc
    rw [h15, runFrom_errRetry env sign true r r1 0 4 e hs ht hc]
    simp [retryTail, oneShot]

/-- `env503` with a bad-host cache hit (fast-fail derived from the
cache, not from the request context). -/
def envFF : Env := { env503 with badHostHit := true }

/-- Witness for C6 at the concrete cache-hit environment. -/
theorem claim_C6_witness :
    (doSigned envFF rqW noSign).attempts = 1 ∧
    (doSigned envFF rqW noSign).waits = [] ∧
    (doSigned envFF rqW noSign).result =
      .err (.fastFail (.rspStatus "503 Service Unavailable")) :=
  have h := claim_C6 envFF rqW noSign rfl rfl
  ⟨h.1, h.2.1, h.2.2.1 rqW raw503 rfl rfl (by decide) (Or.inl (by decide))⟩

/-- The bad-host cache write performed by a call, in terms of the call
itself: the host is written exactly when the request was valid, the
context fast-fail flag was unset, and the call returns an error. -/
theorem doSigned_cacheWrite (env : Env) (r : Req) (sign : SignFunc)
    (hv : env.reqValid = true) :
    (doSigned env r sign).cacheWrite =
      if env.ctxFastFail = false ∧ (doSigned env r sign).result.isErr = true
      then some r.host else none := by
  unfold doSigned
  rw [hv]
  simp only [if_true]

/-- Counterexample to claim C7 as stated: in `envFF` fast-fail is
active for the call (derived from a bad-host cache hit), the call
returns an error, and the cache is nevertheless written — the claim
says it would be left unchanged. -/
theorem claim_C7_cex :
    (envFF.ctxFastFail || envFF.badHostHit) = true ∧
    (doSigned envFF rqW noSign).result.isErr = true ∧
    (doSigned envFF rqW noSign).cacheWrite = some "example.com" ∧
    ¬ (doSigned envFF rqW noSign).cacheWrite = none := by
  exact ⟨rfl, by decide, by decide, by decide⟩

/-- Claim C7 as amended: the bad-host cache is written (with the
request's hostname) exactly when a validated call returns a non-nil
error and fast-fail was not set explicitly in the request context; a
fast-fail derived from a cache hit does not suppress the write. -/
theorem claim_C7 (env : Env) (r : Req) (sign : SignFunc) (hv : env.reqValid = true) :
    ((doSigned env r sign).cacheWrite = some r.host ↔
      env.ctxFastFail = false ∧ (doSigned env r sign).result.isErr = true) ∧
    ((doSigned env r sign).result.isErr = false → (doSigned env r sign).cacheWrite = none) ∧
    (env.ctxFastFail = true → (doSigned env r sign).cacheWrite = none) ∧
    (env.ctxFastFail = false → (doSigned env r sign).result.isErr = true →
      env.badHostHit = true → (doSigned env r sign).cacheWrite = some r.host) := by
  have hw := doSigned_cacheWrite env r sign hv
  by_cases h1 : env.ctxFastFail = false
  · by_cases h2 : (doSigned env r sign).result.isErr = true
    · rw [hw]
      simp [h1, h2]
    · rw [hw]
      simp only [h1, h2, true_and, and_false, if_false]
      have h2' : (doSigned env r sign).result.isErr = false := by
        cases hb : (doSigned env r sign).result.isErr
        · rfl
        · exact absurd hb h2
      simp [h2', h1]
  · have h1' : env.ctxFastFail = true := by
      cases hb : env.ctxFastFail
      · exact absurd hb h1
      · rfl
    rw [hw]
    simp [h1, h1']

/-- Witness for C7 as amended, at the concrete cache-hit environment:
the call errors, the context flag is unset, so the host is written. -/
theorem claim_C7_witness :
    (doSigned envFF rqW noSign).cacheWrite = some rqW.host :=
  (claim_C7 envFF rqW noSign rfl).2.2.2 rfl (by decide) rfl

/-- A retryable response at attempt `i` with a nonzero header-derived
backoff: that backoff (not the exponential fallback) is the wait
performed after the attempt. -/
theorem runFrom_retryWait (env : Env) (sign : SignFunc) (r r1 : Req) (i fuel : Nat)
    (raw : RawResponse) (hs : sign r = some r1) (ht : env.roundTrip r1 i = .ok raw)
    (hcl : raw.contentLength ≤ env.bodyMax)
    (hbad : 500 ≤ raw.statusCode ∨ raw.statusCode = 429)
    (hcan : env.cancelAt i = false)
    (hbo : headerBackoff env.parseAt (env.nowAt i) raw.retryAfter ≠ 0) :
    (runFrom env sign false r i (fuel + 1)).waits.head? =
      some (headerBackoff env.parseAt (env.nowAt i) raw.retryAfter) := by
  rw [runFrom_okRetry env sign false r r1 i fuel raw hs ht hcl hbad]
  simp [retryTail, oneShot, hcan, hbo]

/-- Claim C8: the Retry-After header of a retryable response is parsed
as a nonzero integer seconds count, or else as an HTTP date not before
now converted to a duration from now, and the result is clipped to the
ceiling `baseBackoff * maxRetries` = 10 s; the next wait is exactly
that value, so a 503 carrying `Retry-After: 2` delays the next attempt
by exactly 2 s instead of the exponential fallback. -/
theorem claim_C8 :
    (∀ (pa : String → Int) (now : Int) (after : String), after ≠ "" →
      parseUint32 after ≠ 0 →
      headerBackoff pa now after =
        min ((parseUint32 after : Int) * second) (baseBackoff * (maxRetries : Int))) ∧
    (∀ (pa : String → Int) (now : Int) (after : String), after ≠ "" →
      parseUint32 after = 0 → ¬ pa after < now →
      headerBackoff pa now after =
        min (pa after - now) (baseBackoff * (maxRetries : Int))) ∧
    (baseBackoff * (maxRetries : Int) = 10 * second) ∧
    (∀ (env : Env) (sign : SignFunc) (ff : Bool) (r r1 : Req) (i fuel : Nat)
      (raw : RawResponse), sign r = some r1 → env.roundTrip r1 i = .ok raw →
      raw.contentLength ≤ env.bodyMax → (500 ≤ raw.statusCode ∨ raw.statusCode = 429) →
      ff = false → env.cancelAt i = false →
      headerBackoff env.parseAt (env.nowAt i) raw.retryAfter ≠ 0 →
      (runFrom env sign ff r i (fuel + 1)).waits.head? =
        some (headerBackoff env.parseAt (env.nowAt i) raw.retryAfter)) ∧
    (∀ (env : Env) (sign : SignFunc) (ff : Bool) (r r1 : Req) (i fuel : Nat)
      (raw : RawResponse), sign r = some r1 → env.roundTrip r1 i = .ok raw →
      raw.contentLength ≤ env.bodyMax → raw.statusCode = 503 → raw.retryAfter = "2" →
      ff = false → env.cancelAt i = false →
      (runFrom env sign ff r i (fuel + 1)).waits.head? = some (2 * second)) := by
  refine ⟨?_, ?_, by decide, ?_, ?_⟩
  · intro pa now after hne hu
    simp only [headerBackoff, if_neg hne, if_pos hu]
    rcases le_or_lt ((parseUint32 after : Int) * second) (baseBackoff * (maxRetries : Int))
      with hle | hlt
    · rw [if_neg (not_lt.mpr hle), min_eq_left hle]
    · rw [if_pos hlt, min_eq_right (le_of_lt hlt)]
  · intro pa now after hne hu hnb
    simp only [headerBackoff, if_neg hne, if_neg (not_not_intro hu), if_pos hnb]
    rcases le_or_lt (pa after - now) (baseBackoff * (maxRetries : Int)) with hle | hlt
    · rw [if_neg (not_lt.mpr hle), min_eq_left hle]
    · rw [if_pos hlt, min_eq_right (le_of_lt hlt)]
  · intro env sign ff r r1 i fuel raw hs ht hcl hbad hff hcan hbo
    subst hff
    exact runFrom_retryWait env sign r r1 i fuel raw hs ht hcl hbad hcan hbo
  · intro env sign ff r r1 i fuel raw hs ht hcl h503 hra hff hcan
    subst hff
    have hne : ¬ ("2" : String) = "" := by decide
    have hu : parseUint32 "2" = 2 := by decide
    have hb2 : headerBackoff env.parseAt (env.nowAt i) raw.retryAfter = 2 * second := by
      rw [hra]
      simp only [headerBackoff, if_neg hne, hu]
      norm_num [second, baseBackoff, maxRetries]
    rw [runFrom_retryWait env sign r r1 i fuel raw hs ht hcl (Or.inl (by omega)) hcan
      (by rw [hb2]; norm_num [second]), hb2]

/-- The 503 response carrying `Retry-After: 2`. -/
def rawRA : RawResponse := { raw503 with retryAfter := "2" }

/-- `env503` with the transport answering the Retry-After response. -/
def envRA : Env := { env503 with roundTrip := fun _ _ => .ok rawRA }

/-- Witness for C8: the integer parse with clipping at concrete values,
and the concrete 2 s wait. -/
theorem claim_C8_witness :
    headerBackoff (fun _ => 0) 1000 "30" =
      min ((parseUint32 "30" : Int) * second) (baseBackoff * (maxRetries : Int)) ∧
    (runFrom envRA noSign false rqW 0 5).waits.head? = some (2 * second) :=
  ⟨claim_C8.1 (fun _ => 0) 1000 "30" (by decide) (by decide),
   claim_C8.2.2.2.2 envRA noSign false rqW rqW 0 4 rawRA rfl rfl (by decide) rfl rfl rfl rfl⟩

/-- The 503 response carrying a Retry-After HTTP date. -/
def rawPD : RawResponse := { raw503 with retryAfter := "Mon, 02 Jan 2006 15:04:05 GMT" }

/-- `env503` with attempt 0 answering the past-date 503 and later
attempts succeeding; the date parses to instant 5, before now = 1000. -/
def envC9 : Env :=
  { env503 with
    roundTrip := fun _ i => if i = 0 then .ok rawPD else .ok raw200
    parseAt := fun _ => 5 }

/-- Counterexample to claim C9 as stated: with a past Retry-After HTTP
date on a 503, the wait before the retry is the 4 s exponential
fallback, not the zero (immediate) wait the claim describes. -/
theorem claim_C9_cex :
    envC9.parseAt rawPD.retryAfter < envC9.nowAt 0 ∧
    (doSigned envC9 rqW noSign).waits = [4 * second] ∧
    (4 * second : Int) ≠ 0 := by
  exact ⟨by decide, by decide, by decide⟩

/-- Claim C9 as amended: a Retry-After HTTP date lying in the past (or
any unparseable value, covered by the Go zero time) contributes no
header backoff — so no negative sleep can occur — and the wait used for
the retry is the non-negative exponential fallback `expBackoff i`, not
an immediate retry. -/
theorem claim_C9 (env : Env) (sign : SignFunc) (ff : Bool) (r r1 : Req) (i fuel : Nat)
    (raw : RawResponse) (after : String)
    (hs : sign r = some r1) (ht : env.roundTrip r1 i = .ok raw)
    (hcl : raw.contentLength ≤ env.bodyMax)
    (hbad : 500 ≤ raw.statusCode ∨ raw.statusCode = 429)
    (hra : raw.retryAfter = after) (hne : after ≠ "")
    (hu : parseUint32 after = 0)
    (hpast : env.parseAt after < env.nowAt i)
    (hff : ff = false) (hcan : env.cancelAt i = false) :
    headerBackoff env.parseAt (env.nowAt i) after = 0 ∧
    0 ≤ expBackoff i ∧
    (runFrom env sign ff r i (fuel + 1)).waits.head? = some (expBackoff i) := by
  subst hff
  have hb0 : headerBackoff env.parseAt (env.nowAt i) after = 0 := by
    simp only [headerBackoff, if_neg hne, if_neg (not_not_intro hu),
      if_neg (not_not_intro hpast)]
    norm_num [baseBackoff, second, maxRetries]
  have hexp : 0 ≤ expBackoff i := by
    unfold expBackoff baseBackoff second
    positivity
  refine ⟨hb0, hexp, ?_⟩
  rw [runFrom_okRetry env sign false r r1 i fuel raw hs ht hcl hbad, hra]
  simp [retryTail, oneShot, hcan, hb0]

/-- Witness for C9 as amended at the concrete past-date environment. -/
theorem claim_C9_witness :
    headerBackoff envC9.parseAt (envC9.nowAt 0) "Mon, 02 Jan 2006 15:04:05 GMT" = 0 ∧
    (runFrom envC9 noSign false rqW 0 5).waits.head? = some (expBackoff 0) :=
  have h := claim_C9 envC9 noSign false rqW rqW 0 4 rawPD "Mon, 02 Jan 2006 15:04:05 GMT"
    rfl rfl (by decide) (Or.inl (by decide)) rfl (by decide) (by decide) (by decide) rfl rfl
  ⟨h.1, h.2.2⟩

end HttpClient
